import Mathlib

/-!
Verification development for the `zellij-compact-bar` status-bar plugin.

The Rust sources (`src/line.rs`, `src/main.rs`) are shallowly embedded below:
pure functions become Lean functions, the `loop` in `populate_tabs_in_tab_line`
becomes fuel-indexed structural recursion (the wrapper supplies enough fuel for
the loop's real termination measure, one tab moved per iteration), `usize`
arithmetic is `Nat` with explicit saturation at `2^64 - 1`, and operations that
can panic (`unwrap`, `split_off` out of range, non-saturating subtraction)
return `Option` with `none` for the panic.  The clock reading, the load-average
file and the float bucketing of `load_status` are external collaborators (spec
paragraph 2, paragraph 6): their resolved values are explicit inputs here.
-/

namespace CompactBar

/-- Simplified terminal display width of a character, following the
`unicode_width` crate at the boundary needed here: control characters are
zero columns, East-Asian wide ranges are two columns, everything else
(ASCII, arrows, the private-use separator glyph) is one column. -/
def charWidth (c : Char) : Nat :=
  let n := c.toNat
  if n < 0x20 then 0
  else if (0x1100 ≤ n ∧ n ≤ 0x115F) ∨ (0x2E80 ≤ n ∧ n ≤ 0xA4CF) ∨
      (0xAC00 ≤ n ∧ n ≤ 0xD7A3) ∨ (0xF900 ≤ n ∧ n ≤ 0xFAFF) ∨
      (0xFE30 ≤ n ∧ n ≤ 0xFE4F) ∨ (0xFF00 ≤ n ∧ n ≤ 0xFF60) ∨
      (0xFFE0 ≤ n ∧ n ≤ 0xFFE6) ∨ (0x20000 ≤ n ∧ n ≤ 0x3FFFD) then 2
  else 1

/-- Display width of a string (`UnicodeWidthStr::width` in the source). -/
def strWidth (s : String) : Nat := (s.data.map charWidth).sum

/-- ASCII uppercase of one character (`u8::to_ascii_uppercase`). -/
def asciiUpperChar (ch : Char) : Char :=
  if 'a' ≤ ch ∧ ch ≤ 'z' then Char.ofNat (ch.toNat - 32) else ch

/-- ASCII uppercasing (`make_ascii_uppercase` in the source; the strings it
is applied to — mode names, layout names — are treated bytewise there). -/
def asciiUpper (s : String) : String := ⟨s.data.map asciiUpperChar⟩

/-- `usize::MAX` on the 64-bit targets the plugin is built for. -/
def USIZE_MAX : Nat := 2 ^ 64 - 1

/-- `usize::saturating_add`. -/
def satAdd (a b : Nat) : Nat := min (a + b) USIZE_MAX

/-- `zellij_tile::prelude::PaletteColor`. -/
inductive PaletteColor where
  | Rgb : Nat → Nat → Nat → PaletteColor
  | EightBit : Nat → PaletteColor
deriving DecidableEq, Repr

/-- One entry of `Styling` (base/background/emphasis colours). -/
structure StyleColors where
  base : PaletteColor
  background : PaletteColor
  emphasis_0 : PaletteColor
  emphasis_1 : PaletteColor
  emphasis_2 : PaletteColor
  emphasis_3 : PaletteColor
deriving DecidableEq, Repr

/-- The subset of `zellij_tile::prelude::Styling` the plugin reads. -/
structure Styling where
  text_unselected : StyleColors
  text_selected : StyleColors
  ribbon_unselected : StyleColors
  ribbon_selected : StyleColors
deriving DecidableEq, Repr

/-- `zellij_tile::prelude::InputMode` (variants as printed by `{:?}`). -/
inductive InputMode where
  | Normal | Locked | Resize | Pane | Tab | Scroll | EnterSearch | Search
  | RenameTab | RenamePane | Session | Move | Prompt | Tmux
deriving DecidableEq, Repr

/-- The `Debug` rendering of an `InputMode`, as `format!("{:?}", mode)`. -/
def modeName : InputMode → String
  | .Normal => "Normal"
  | .Locked => "Locked"
  | .Resize => "Resize"
  | .Pane => "Pane"
  | .Tab => "Tab"
  | .Scroll => "Scroll"
  | .EnterSearch => "EnterSearch"
  | .Search => "Search"
  | .RenameTab => "RenameTab"
  | .RenamePane => "RenamePane"
  | .Session => "Session"
  | .Move => "Move"
  | .Prompt => "Prompt"
  | .Tmux => "Tmux"

/-- `zellij_tile::prelude::PluginCapabilities` (only `arrow_fonts` is read). -/
structure PluginCapabilities where
  arrow_fonts : Bool
deriving DecidableEq, Repr

/-- An `ansi_term` style as produced by the `style!(fg, bg)` macro,
optionally with bold/italic. -/
structure AnsiStyle where
  fg : PaletteColor
  bg : PaletteColor
  bold : Bool
  italic : Bool
deriving DecidableEq, Repr

/-- Foreground colour escape fragment. -/
def paletteColorFg : PaletteColor → String
  | .Rgb r g b => "38;2;" ++ toString r ++ ";" ++ toString g ++ ";" ++ toString b
  | .EightBit n => "38;5;" ++ toString n

/-- Background colour escape fragment. -/
def paletteColorBg : PaletteColor → String
  | .Rgb r g b => "48;2;" ++ toString r ++ ";" ++ toString g ++ ";" ++ toString b
  | .EightBit n => "48;5;" ++ toString n

/-- The `paint` capability of the styling collaborator (spec paragraph 6): a
deterministic, width-neutral wrapping of the text in escape codes.  The
exact byte layout of `ansi_term`'s output is abstracted; what the layout
algorithm relies on is that painting is a pure function of style and text. -/
def paint (st : AnsiStyle) (s : String) : String :=
  "\x1b[" ++ (if st.bold then "1;" else "") ++ (if st.italic then "3;" else "") ++
    paletteColorFg st.fg ++ ";" ++ paletteColorBg st.bg ++ "m" ++ s ++ "\x1b[0m"

/-- `LinePart` from `src/main.rs`: pre-styled text, its declared display
width, and the optional tab identity used for hit-testing. -/
structure LinePart where
  part : String
  len : Nat
  tab_index : Option Nat
deriving DecidableEq, Repr

/-- `LinePart::default()`. -/
def LinePart.default : LinePart := { part := "", len := 0, tab_index := none }

/-- `get_current_title_len` from `src/line.rs`: sum of the declared widths. -/
def get_current_title_len (current_title : List LinePart) : Nat :=
  (current_title.map LinePart.len).sum

/-- `ARROW_SEPARATOR` from `src/main.rs` (the private-use glyph U+E0B0). -/
def ARROW_SEPARATOR : String := ""

/-- `tab_separator` from `src/line.rs`. -/
def tab_separator (capabilities : PluginCapabilities) : String :=
  if !capabilities.arrow_fonts then ARROW_SEPARATOR else ""

/-- `left_more_message` from `src/line.rs`: the "← +N" collapse indicator. -/
def left_more_message (tab_count_to_the_left : Nat) (palette : Styling)
    (separator : String) (tab_index : Nat) : LinePart :=
  if tab_count_to_the_left = 0 then LinePart.default
  else
    let more_text :=
      if tab_count_to_the_left < 10000 then
        " ← +" ++ toString tab_count_to_the_left ++ " "
      else " ← +many "
    let more_text_len := strWidth more_text + 2 * strWidth separator
    let text_color := palette.ribbon_unselected.base
    let sep_color := palette.text_unselected.background
    let plus_ribbon_bg := palette.text_selected.emphasis_0
    let left_separator := paint ⟨sep_color, plus_ribbon_bg, false, false⟩ separator
    let more_styled_text := paint ⟨text_color, plus_ribbon_bg, true, false⟩ more_text
    let right_separator := paint ⟨plus_ribbon_bg, sep_color, false, false⟩ separator
    { part := left_separator ++ more_styled_text ++ right_separator,
      len := more_text_len, tab_index := some tab_index }

/-- `right_more_message` from `src/line.rs`: the "+N →" collapse indicator. -/
def right_more_message (tab_count_to_the_right : Nat) (palette : Styling)
    (separator : String) (tab_index : Nat) : LinePart :=
  if tab_count_to_the_right = 0 then LinePart.default
  else
    let more_text :=
      if tab_count_to_the_right < 10000 then
        " +" ++ toString tab_count_to_the_right ++ " → "
      else " +many → "
    let more_text_len := strWidth more_text + 2 * strWidth separator
    let text_color := palette.ribbon_unselected.base
    let sep_color := palette.text_unselected.background
    let plus_ribbon_bg := palette.text_selected.emphasis_0
    let left_separator := paint ⟨sep_color, plus_ribbon_bg, false, false⟩ separator
    let more_styled_text := paint ⟨text_color, plus_ribbon_bg, true, false⟩ more_text
    let right_separator := paint ⟨plus_ribbon_bg, sep_color, false, false⟩ separator
    { part := left_separator ++ more_styled_text ++ right_separator,
      len := more_text_len, tab_index := some tab_index }

/-- One execution of the `loop` in `populate_tabs_in_tab_line`
(`src/line.rs` lines 30-109), fuel-indexed: each iteration either breaks or
moves exactly one tab, so the wrapper's fuel of `before.length + after.length
+ 1` always suffices.  The result is the final contents of the three vectors
plus a flag recording whether the terminal iteration inserted the collapse
indicators (the `else` branch at lines 103-108).  `none` models a panic:
`pop().unwrap()` / `remove(0)` on an empty vector, or fuel exhaustion (which
never happens when the wrapper's fuel is used). -/
def populateGo (fuel : Nat) (tabs_before_active tabs_after_active tabs_to_render : List LinePart)
    (total_left total_right middle_size cols : Nat) (palette : Styling)
    (capabilities : PluginCapabilities) :
    Option (List LinePart × List LinePart × List LinePart × Bool) :=
  match fuel with
  | 0 => none
  | fuel + 1 =>
    let left_count := tabs_before_active.length
    let collapsed_left := left_more_message left_count palette
      (tab_separator capabilities) (left_count - 1)
    let right_count := tabs_after_active.length
    let collapsed_right := right_more_message right_count palette
      (tab_separator capabilities) (left_count + tabs_to_render.length)
    let total_size := collapsed_left.len + middle_size + collapsed_right.len
    if cols < total_size then
      some (tabs_before_active, tabs_after_active, tabs_to_render, false)
    else
      let left := (tabs_before_active.getLast?.map LinePart.len).getD USIZE_MAX
      let right := (tabs_after_active.head?.map LinePart.len).getD USIZE_MAX
      let size_by_adding_left :=
        satAdd left total_size - (if left_count = 1 then collapsed_left.len else 0)
      let size_by_adding_right :=
        satAdd right total_size - (if right_count = 1 then collapsed_right.len else 0)
      let left_fits := size_by_adding_left ≤ cols
      let right_fits := size_by_adding_right ≤ cols
      if (total_left ≤ total_right ∨ ¬ right_fits) ∧ left_fits then
        match tabs_before_active.getLast? with
        | some tab =>
          populateGo fuel tabs_before_active.dropLast tabs_after_active
            (tab :: tabs_to_render) (total_left + tab.len) total_right
            (middle_size + tab.len) cols palette capabilities
        | none => none
      else if right_fits then
        match tabs_after_active with
        | tab :: rest =>
          populateGo fuel tabs_before_active rest (tabs_to_render ++ [tab])
            total_left (total_right + tab.len) (middle_size + tab.len)
            cols palette capabilities
        | [] => none
      else
        some (tabs_before_active, tabs_after_active,
          collapsed_left :: tabs_to_render ++ [collapsed_right], true)

/-- `populate_tabs_in_tab_line` from `src/line.rs`: returns the final
(before, after, rendered, indicators-inserted) state of the three vectors. -/
def populate_tabs_in_tab_line (tabs_before_active tabs_after_active tabs_to_render : List LinePart)
    (cols : Nat) (palette : Styling) (capabilities : PluginCapabilities) :
    Option (List LinePart × List LinePart × List LinePart × Bool) :=
  populateGo (tabs_before_active.length + tabs_after_active.length + 1)
    tabs_before_active tabs_after_active tabs_to_render 0 0
    (get_current_title_len tabs_to_render) cols palette capabilities

/-- `tab_line_prefix` from `src/line.rs` lines 180-237: the empty leading
label, the optional parenthesized session name and the mode badge, each
admitted by an independent check against the original column budget. -/
def tab_line_prefix (session_name : Option String) (mode : InputMode)
    (palette : Styling) (cols : Nat) : List LinePart :=
  let prefix_text : String := ""
  let prefix_text_len := prefix_text.length
  let text_color := palette.text_unselected.base
  let bg_color := palette.text_unselected.background
  let locked_mode_color := palette.text_unselected.emphasis_3
  let normal_mode_color := palette.text_unselected.emphasis_2
  let other_modes_color := palette.text_unselected.emphasis_0
  let parts : List LinePart :=
    [{ part := paint ⟨text_color, bg_color, true, false⟩ prefix_text,
       len := prefix_text_len, tab_index := none }]
  let parts :=
    match session_name with
    | some name =>
      let name_part := "(" ++ name ++ ")"
      let name_part_len := strWidth name_part
      if name_part_len ≤ cols - prefix_text_len then
        parts ++ [{ part := paint ⟨text_color, bg_color, true, false⟩ name_part,
                    len := name_part_len, tab_index := none }]
      else parts
    | none => parts
  let mode_part := asciiUpper (modeName mode)
  let mode_part_padded := " " ++ mode_part ++ " "
  let mode_part_len := strWidth mode_part_padded
  let mode_part_styled_text :=
    if mode = InputMode.Locked then
      paint ⟨locked_mode_color, bg_color, true, false⟩ mode_part_padded
    else if mode = InputMode.Normal then
      paint ⟨normal_mode_color, bg_color, true, false⟩ mode_part_padded
    else paint ⟨other_modes_color, bg_color, true, false⟩ mode_part_padded
  if mode_part_len ≤ cols - prefix_text_len then
    parts ++ [{ part := mode_part_styled_text, len := mode_part_len, tab_index := none }]
  else parts

/-- `time_status` from `src/line.rs` lines 402-420, with the formatted clock
reading passed explicitly: the source calls `Local::now()` (an external
collaborator per spec paragraph 2); `timeStr` is the already-formatted
`" %H:%M:%S %A "` string it produces. -/
def time_status (palette : Styling) (separator : String) (timeStr : String) : LinePart :=
  let part := separator ++ timeStr
  let len := strWidth part
  let bg := palette.text_unselected.background
  let green := palette.ribbon_selected.background
  { part := paint ⟨bg, green, false, false⟩ part, len := len, tab_index := none }

/-- The resolved external readings of `load_status`: the three load-average
fields read from `/host/loadavg` and the severity-tier colour computed from
the parsed first figure and the CPU count.  The file read, float parsing and
percent bucketing (`src/line.rs` lines 423-442) are external collaborators /
floating-point styling-only computations; their resolved values are inputs. -/
structure LoadInput where
  load1 : String
  load5 : String
  load15 : String
  color : PaletteColor
deriving DecidableEq, Repr

/-- `load_status` from `src/line.rs` lines 422-460, over resolved readings:
the widths and the produced segment are computed exactly as in the source;
the severity colour (styling only) arrives pre-bucketed in `li`. -/
def load_status (styling : Styling) (separator : String) (li : LoadInput) : LinePart :=
  let bg := styling.text_unselected.background
  let color := li.color
  let loads := " " ++ li.load1 ++ " " ++ li.load5 ++ " " ++ li.load15 ++ " "
  let part := separator ++ loads ++ separator
  let len := strWidth part
  let part := paint ⟨bg, color, false, false⟩ separator ++
    paint ⟨bg, color, false, false⟩ loads ++ paint ⟨color, bg, false, false⟩ separator
  let part := paint ⟨bg, color, false, false⟩ part
  { part := part, len := len, tab_index := none }

/-- `swap_layout_status` from `src/line.rs` lines 339-400.  Note that the
`.len()` at line 379 is taken (through `Deref`) on the unstyled padded name,
so it is the UTF-8 byte length of `" NAME "`, and that `short_len` is
`full_len + 1`. -/
def swap_layout_status (max_len : Nat) (swap_layout_name : Option String)
    (is_swap_layout_damaged : Bool) (input_mode : InputMode) (palette : Styling)
    (separator : String) : Option LinePart :=
  match swap_layout_name with
  | none => none
  | some swap_layout_name =>
    let swap_layout_name := asciiUpper (" " ++ swap_layout_name ++ " ")
    let bg := palette.text_unselected.background
    let fg := palette.ribbon_unselected.background
    let green := palette.ribbon_selected.background
    let styled_parts : String × String × String :=
      if input_mode = InputMode.Locked then
        (paint ⟨bg, fg, false, false⟩ separator,
         paint ⟨bg, fg, false, true⟩ swap_layout_name,
         paint ⟨fg, bg, false, false⟩ separator)
      else if is_swap_layout_damaged then
        (paint ⟨bg, fg, false, false⟩ separator,
         paint ⟨bg, fg, true, false⟩ swap_layout_name,
         paint ⟨fg, bg, false, false⟩ separator)
      else
        (paint ⟨bg, green, false, false⟩ separator,
         paint ⟨bg, green, true, false⟩ swap_layout_name,
         paint ⟨green, bg, false, false⟩ separator)
    let swap_layout_indicator := styled_parts.1 ++ styled_parts.2.1 ++ styled_parts.2.2
    let swap_layout_name_len := swap_layout_name.utf8ByteSize + strWidth separator * 2
    let part := swap_layout_indicator
    let full_len := swap_layout_name_len
    let short_len := swap_layout_name_len + 1
    if full_len ≤ max_len then
      some { part := part, len := full_len, tab_index := none }
    else if short_len ≤ max_len ∧ input_mode ≠ InputMode.Locked then
      some { part := swap_layout_indicator, len := short_len, tab_index := none }
    else none

/-- One admit-or-skip step of the widget packing in `tab_line` (the repeated
`if remaining_space >= w.len { remaining_space -= w.len; right_parts.push(w) }`
pattern at `src/line.rs` lines 295-304): admit the widget and decrement the
remaining space when it fits, otherwise skip it. -/
def try_widget (st : List LinePart × Nat) (w : LinePart) : List LinePart × Nat :=
  if w.len ≤ st.2 then (st.1 ++ [w], st.2 - w.len) else st

/-- The right-aligned widget packing section of `tab_line` (`src/line.rs`
lines 291-318): tries the clock, then the load average, each via the
admit-or-skip step, then the swap-layout indicator behind its
`remaining_space > 0` guard (its internal fit checks replace the
admit-or-skip test); returns the admitted widgets in admission order
together with the space left over. -/
def right_widgets (remaining_space : Nat) (palette : Styling) (separator : String)
    (timeStr : String) (li : LoadInput) (active_swap_layout_name : Option String)
    (is_swap_layout_dirty : Bool) (mode : InputMode) : List LinePart × Nat :=
  let state1 := try_widget ([], remaining_space) (time_status palette separator timeStr)
  let state2 := try_widget state1 (load_status palette separator li)
  match (if 0 < state2.2 then
      swap_layout_status state2.2 active_swap_layout_name is_swap_layout_dirty
        mode palette separator
    else none) with
  | some sls => (state2.1 ++ [sls], state2.2 - sls.len)
  | none => state2

/-- The active-tab extraction at the top of `tab_line` (`src/line.rs` lines
259-265): `split_off` (which panics when the index is out of range, hence
`none`), then the first after-active tab or, failing that, `pop().unwrap()`
(which panics on an empty vector, hence `none`). -/
def split_active (all_tabs : List LinePart) (active_tab_index : Nat) :
    Option (List LinePart × LinePart × List LinePart) :=
  if all_tabs.length < active_tab_index then none
  else
    let tabs_after_active := all_tabs.drop active_tab_index
    let tabs_before_active := all_tabs.take active_tab_index
    match tabs_after_active with
    | active_tab :: rest => some (tabs_before_active, active_tab, rest)
    | [] =>
      match tabs_before_active.getLast? with
      | some active_tab => some (tabs_before_active.dropLast, active_tab, [])
      | none => none

/-- `tab_line` from `src/line.rs` lines 247-337.  `timeStr` and `li` are the
resolved external readings consumed by `time_status`/`load_status`; `none`
models the panics (`pop().unwrap()`, out-of-range `split_off`, underflow of
the non-saturating `cols - current_title_len` at line 292, or loop-fuel
exhaustion, which enough fuel rules out). -/
def tab_line (session_name : Option String) (all_tabs : List LinePart)
    (active_tab_index : Nat) (cols : Nat) (palette : Styling)
    (capabilities : PluginCapabilities) (hide_session_name : Bool)
    (mode : InputMode) (active_swap_layout_name : Option String)
    (is_swap_layout_dirty : Bool) (timeStr : String) (li : LoadInput) :
    Option (List LinePart) :=
  match split_active all_tabs active_tab_index with
  | none => none
  | some (tabs_before_active, active_tab, tabs_after_active) =>
    let parts := tab_line_prefix (if hide_session_name then none else session_name)
      mode palette cols
    let prefix_len := get_current_title_len parts
    if cols < prefix_len + active_tab.len then some parts
    else
      match populate_tabs_in_tab_line tabs_before_active tabs_after_active
          [active_tab] (cols - prefix_len) palette capabilities with
      | none => none
      | some (_, _, tabs_to_render, _) =>
        let parts := parts ++ tabs_to_render
        let current_title_len := get_current_title_len parts
        if cols < current_title_len then none
        else
          let separator := tab_separator capabilities
          let packed := right_widgets (cols - current_title_len) palette separator
            timeStr li active_swap_layout_name is_swap_layout_dirty mode
          let bg := palette.text_unselected.background
          let buffer := String.join (List.replicate packed.2
            (paint ⟨bg, bg, false, false⟩ " "))
          some (parts ++
            [{ part := buffer, len := packed.2, tab_index := none }] ++
            packed.1.reverse)

/-- The fields of `zellij_tile::prelude::TabInfo` the plugin reads. -/
structure TabInfo where
  position : Nat
  name : String
  active : Bool
  is_swap_layout_dirty : Bool
  active_swap_layout_name : Option String
deriving DecidableEq, Repr

/-- Modelled from the spec: `tab_style` lives in `src/tab.rs`, which is not in
the repository snapshot (only `src/line.rs` and `src/main.rs` are).  Per spec
paragraph 3 each tab descriptor becomes one Display Segment whose identity
equals the tab's position and whose declared width is the visual width of its
(space-padded) name plus a separator on each side, styled through the opaque
paint capability (alternation affects colour only). -/
def tab_style (tabname : String) (tab : TabInfo) (is_alternate_tab : Bool)
    (palette : Styling) (capabilities : PluginCapabilities) : LinePart :=
  let separator := tab_separator capabilities
  let text := " " ++ tabname ++ " "
  let bg := if is_alternate_tab then palette.ribbon_unselected.background
    else palette.text_unselected.background
  let fg := if tab.active then palette.ribbon_selected.background
    else palette.ribbon_unselected.base
  { part := paint ⟨fg, bg, false, false⟩ (separator ++ text ++ separator),
    len := strWidth text + 2 * strWidth separator,
    tab_index := some tab.position }

/-- The `style` field of `ModeInfo` as read by the plugin. -/
structure StylePrefs where
  colors : Styling
  hide_session_name : Bool
deriving DecidableEq, Repr

/-- The fields of `zellij_tile::prelude::ModeInfo` the plugin reads. -/
structure ModeInfo where
  mode : InputMode
  session_name : Option String
  style : StylePrefs
  capabilities : PluginCapabilities
deriving DecidableEq, Repr

/-- The plugin `State` from `src/main.rs`. -/
structure State where
  got_permissions : Bool
  tabs : List TabInfo
  active_tab_idx : Nat
  mode_info : ModeInfo
  tab_line : List LinePart
deriving DecidableEq, Repr

/-- The `Event::TabUpdate` arm of `update` (`src/main.rs` lines 90-102):
stores the tabs and the 1-based active index when an active tab exists,
otherwise only logs and leaves the state unchanged.  Returns the new state
and `should_render`. -/
def update_tab_update (s : State) (tabs : List TabInfo) : State × Bool :=
  match tabs.findIdx? (fun t => t.active) with
  | some active_tab_index =>
    let active_tab_idx := active_tab_index + 1
    let should_render := decide (s.active_tab_idx ≠ active_tab_idx ∨ s.tabs ≠ tabs)
    ({ s with active_tab_idx := active_tab_idx, tabs := tabs }, should_render)
  | none => (s, false)

/-- The per-tab accumulation loop of `render` (`src/main.rs` lines 134-160):
builds the styled segments, remembers the active tab's position and swap
layout data, and alternates the tab colouring.  The accumulator mirrors the
loop's mutable locals `(all_tabs, active_tab_index, active_swap_layout_name,
is_swap_layout_dirty, is_alternate_tab)`. -/
def render_tabs (mode_info : ModeInfo) :
    List TabInfo → (List LinePart × Nat × Option String × Bool × Bool) →
    (List LinePart × Nat × Option String × Bool × Bool)
  | [], acc => acc
  | t :: rest, (all_tabs, active_tab_index, active_swap_layout_name, is_swap_layout_dirty, is_alternate_tab) =>
    let tabname :=
      if t.active ∧ mode_info.mode = InputMode.RenameTab then
        (if t.name = "" then "Enter name..." else t.name)
      else t.name
    let state :=
      if t.active ∧ mode_info.mode = InputMode.RenameTab then
        (t.position, active_swap_layout_name, is_swap_layout_dirty)
      else if t.active then
        (t.position, t.active_swap_layout_name, t.is_swap_layout_dirty)
      else (active_tab_index, active_swap_layout_name, is_swap_layout_dirty)
    let tab := tab_style tabname t is_alternate_tab mode_info.style.colors
      mode_info.capabilities
    render_tabs mode_info rest
      (all_tabs ++ [tab], state.1, state.2.1, state.2.2, !is_alternate_tab)

/-- `render` from `src/main.rs` lines 129-186, as the segment list it stores
in `self.tab_line` and prints: the empty tab list yields an empty frame, and
otherwise the accumulated segments are handed to `tab_line`.  `timeStr` and
`li` are the resolved clock / load readings. -/
def render (s : State) (cols : Nat) (timeStr : String) (li : LoadInput) :
    Option (List LinePart) :=
  if s.tabs.isEmpty then some []
  else
    let acc := render_tabs s.mode_info s.tabs ([], 0, none, false, false)
    tab_line s.mode_info.session_name acc.1 acc.2.1 cols s.mode_info.style.colors
      s.mode_info.capabilities s.mode_info.style.hide_session_name
      s.mode_info.mode acc.2.2.1 acc.2.2.2.1 timeStr li

/-! Basic facts about declared widths. -/

@[simp] theorem get_current_title_len_nil : get_current_title_len [] = 0 := rfl

@[simp] theorem get_current_title_len_cons (q : LinePart) (l : List LinePart) :
    get_current_title_len (q :: l) = q.len + get_current_title_len l := by
  simp [get_current_title_len]

@[simp] theorem get_current_title_len_append (l₁ l₂ : List LinePart) :
    get_current_title_len (l₁ ++ l₂) =
      get_current_title_len l₁ + get_current_title_len l₂ := by
  simp [get_current_title_len]

@[simp] theorem get_current_title_len_reverse (l : List LinePart) :
    get_current_title_len l.reverse = get_current_title_len l := by
  simp [get_current_title_len, List.sum_reverse]

/-- Saturating-addition fitness check: when a projected size that saturates at
`usize::MAX` passes the `≤ cols` test, the budget `cols` is far enough from
`usize::MAX` (`2 * cols < usize::MAX`) and the subtracted indicator rebate is
part of the already-admitted total, the unsaturated sum also fits. -/
theorem fits_bound (x total δ ms cols : Nat) (hδ : δ + ms ≤ total)
    (hfits : satAdd x total - δ ≤ cols) (htop : total ≤ cols)
    (hc : 2 * cols < USIZE_MAX) : x + ms ≤ cols := by
  simp only [satAdd, USIZE_MAX] at *
  omega

/-- A side whose vectors are empty never "fits": its projected size is
`usize::MAX`, which cannot pass the `≤ cols` test when `2 * cols <
usize::MAX`. -/
theorem empty_side_not_fits (total cols : Nat) (htop : total ≤ cols)
    (hc : 2 * cols < USIZE_MAX) : ¬ satAdd USIZE_MAX total - 0 ≤ cols := by
  simp only [satAdd, USIZE_MAX] at *
  omega

/-- Loop invariant of `populate_tabs_in_tab_line`: when the running
`middle_size` is the declared width of `tabs_to_render` and fits the budget,
the final rendered list also fits the budget.  Every branch preserves it: the
top `total_size > cols` check guards the indicator insertion, and a side is
only drained when the projected size (including the still-needed indicators,
minus the one the move eliminates) passes the `≤ cols` test. -/
theorem populateGo_sum_le (p : Styling) (c : PluginCapabilities) :
    ∀ (fuel : Nat) (b a m : List LinePart) (tl tr ms cols : Nat)
      (b' a' r : List LinePart) (ins : Bool),
      populateGo fuel b a m tl tr ms cols p c = some (b', a', r, ins) →
      ms = get_current_title_len m → ms ≤ cols → 2 * cols < USIZE_MAX →
      get_current_title_len r ≤ cols := by
  intro fuel
  induction fuel with
  | zero =>
    intro b a m tl tr ms cols b' a' r ins h
    simp [populateGo] at h
  | succ n ih =>
    intro b a m tl tr ms cols b' a' r ins h hms hle hc
    simp only [populateGo] at h
    set cl := left_more_message b.length p (tab_separator c) (b.length - 1) with hcl
    set cr := right_more_message a.length p (tab_separator c) (b.length + m.length) with hcr
    set lv := (b.getLast?.map LinePart.len).getD USIZE_MAX with hlv
    set rv := (a.head?.map LinePart.len).getD USIZE_MAX with hrv
    set dl := if b.length = 1 then cl.len else 0 with hdl
    set dr := if a.length = 1 then cr.len else 0 with hdr
    clear_value cl cr lv rv dl dr
    have hdl_le : dl ≤ cl.len := by rw [hdl]; split <;> omega
    have hdr_le : dr ≤ cr.len := by rw [hdr]; split <;> omega
    split at h
    · rename_i htop
      simp only [Option.some.injEq, Prod.mk.injEq] at h
      obtain ⟨-, -, hr, -⟩ := h
      subst hr
      omega
    · rename_i htop
      split at h
      · rename_i hcond
        split at h
        · rename_i tab heq
          rw [heq] at hlv
          simp only [Option.map_some', Option.getD_some] at hlv
          refine ih _ _ _ _ _ _ _ _ _ _ _ h ?_ ?_ hc
          · simp only [hms, get_current_title_len_cons]; omega
          · have hb : lv + ms ≤ cols :=
              fits_bound lv _ dl ms cols (by omega) hcond.2 (by omega) hc
            omega
        · simp at h
      · split at h
        · rename_i hcond hrf
          split at h
          · rename_i tab rest
            simp only [List.head?_cons, Option.map_some', Option.getD_some] at hrv
            refine ih _ _ _ _ _ _ _ _ _ _ _ h ?_ ?_ hc
            · simp only [hms, get_current_title_len_append, get_current_title_len_cons,
                get_current_title_len_nil]
              omega
            · have hb : rv + ms ≤ cols :=
                fits_bound rv _ dr ms cols (by omega) hrf (by omega) hc
              omega
          · simp at h
        · simp only [Option.some.injEq, Prod.mk.injEq] at h
          obtain ⟨-, -, hr, -⟩ := h
          subst hr
          simp
          omega

/-- The loop only ever adds segments around the initial `tabs_to_render`:
the rendered list extends the initial middle on both sides (so in
particular the active tab, placed in the middle by `tab_line`, survives). -/
theorem populateGo_extends (p : Styling) (c : PluginCapabilities) :
    ∀ (fuel : Nat) (b a m : List LinePart) (tl tr ms cols : Nat)
      (b' a' r : List LinePart) (ins : Bool),
      populateGo fuel b a m tl tr ms cols p c = some (b', a', r, ins) →
      ∃ pre post, r = pre ++ m ++ post := by
  intro fuel
  induction fuel with
  | zero =>
    intro b a m tl tr ms cols b' a' r ins h
    simp [populateGo] at h
  | succ n ih =>
    intro b a m tl tr ms cols b' a' r ins h
    simp only [populateGo] at h
    set cl := left_more_message b.length p (tab_separator c) (b.length - 1) with hcl
    set cr := right_more_message a.length p (tab_separator c) (b.length + m.length) with hcr
    set lv := (b.getLast?.map LinePart.len).getD USIZE_MAX with hlv
    set rv := (a.head?.map LinePart.len).getD USIZE_MAX with hrv
    set dl := if b.length = 1 then cl.len else 0 with hdl
    set dr := if a.length = 1 then cr.len else 0 with hdr
    clear_value cl cr lv rv dl dr
    split at h
    · simp only [Option.some.injEq, Prod.mk.injEq] at h
      obtain ⟨-, -, hr, -⟩ := h
      exact ⟨[], [], by simp [hr.symm]⟩
    · split at h
      · split at h
        · rename_i tab heq
          obtain ⟨pre, post, hr⟩ := ih _ _ _ _ _ _ _ _ _ _ _ h
          exact ⟨pre ++ [tab], post, by simp [hr]⟩
        · simp at h
      · cases a with
        | nil =>
          split at h
          · simp at h
          · simp only [Option.some.injEq, Prod.mk.injEq] at h
            obtain ⟨-, -, hr, -⟩ := h
            exact ⟨[cl], [cr], by simp [hr.symm]⟩
        | cons tab rest =>
          split at h
          · obtain ⟨pre, post, hr⟩ := ih _ _ _ _ _ _ _ _ _ _ _ h
            exact ⟨pre, [tab] ++ post, by simp [hr]⟩
          · simp only [Option.some.injEq, Prod.mk.injEq] at h
            obtain ⟨-, -, hr, -⟩ := h
            exact ⟨[cl], [cr], by simp [hr.symm]⟩

/-- When the loop ends by inserting the collapse indicators (`inserted =
true`), the rendered list is exactly the indicators computed *in that final
iteration* around the visible middle: the left indicator summarizes and
points into the final remaining before-active list, the right indicator the
final remaining after-active list, with the identities of the two hidden
tabs adjacent to the visible region. -/
theorem populateGo_inserted (p : Styling) (c : PluginCapabilities) :
    ∀ (fuel : Nat) (b a m : List LinePart) (tl tr ms cols : Nat)
      (b' a' r : List LinePart),
      populateGo fuel b a m tl tr ms cols p c = some (b', a', r, true) →
      ∃ mid, r = left_more_message b'.length p (tab_separator c) (b'.length - 1) ::
        (mid ++ [right_more_message a'.length p (tab_separator c) (b'.length + mid.length)]) := by
  intro fuel
  induction fuel with
  | zero =>
    intro b a m tl tr ms cols b' a' r h
    simp [populateGo] at h
  | succ n ih =>
    intro b a m tl tr ms cols b' a' r h
    simp only [populateGo] at h
    set cl := left_more_message b.length p (tab_separator c) (b.length - 1) with hcl
    set cr := right_more_message a.length p (tab_separator c) (b.length + m.length) with hcr
    set lv := (b.getLast?.map LinePart.len).getD USIZE_MAX with hlv
    set rv := (a.head?.map LinePart.len).getD USIZE_MAX with hrv
    set dl := if b.length = 1 then cl.len else 0 with hdl
    set dr := if a.length = 1 then cr.len else 0 with hdr
    clear_value cl cr lv rv dl dr
    split at h
    · simp at h
    · split at h
      · split at h
        · exact ih _ _ _ _ _ _ _ _ _ _ h
        · simp at h
      · split at h
        · split at h
          · exact ih _ _ _ _ _ _ _ _ _ _ h
          · simp at h
        · simp only [Option.some.injEq, Prod.mk.injEq] at h
          obtain ⟨hb, ha, hr, -⟩ := h
          subst hb
          subst ha
          exact ⟨m, by rw [← hr, hcl, hcr]; simp⟩

/-- With enough fuel (one unit per tab, plus one) and a budget bounded away
from `usize::MAX`, the loop terminates without panicking: a side whose
vector is empty projects a saturating `usize::MAX` size and therefore never
passes its fit check, so the `pop().unwrap()` / `remove(0)` calls are only
reached with a non-empty vector. -/
theorem populateGo_isSome (p : Styling) (c : PluginCapabilities) :
    ∀ (fuel : Nat) (b a m : List LinePart) (tl tr ms cols : Nat),
      b.length + a.length < fuel → 2 * cols < USIZE_MAX →
      (populateGo fuel b a m tl tr ms cols p c).isSome := by
  intro fuel
  induction fuel with
  | zero =>
    intro b a m tl tr ms cols hf
    omega
  | succ n ih =>
    intro b a m tl tr ms cols hf hc
    simp only [populateGo]
    set cl := left_more_message b.length p (tab_separator c) (b.length - 1) with hcl
    set cr := right_more_message a.length p (tab_separator c) (b.length + m.length) with hcr
    set lv := (b.getLast?.map LinePart.len).getD USIZE_MAX with hlv
    set rv := (a.head?.map LinePart.len).getD USIZE_MAX with hrv
    set dl := if b.length = 1 then cl.len else 0 with hdl
    set dr := if a.length = 1 then cr.len else 0 with hdr
    clear_value cl cr lv rv dl dr
    split
    · simp
    · rename_i htop
      split
      · rename_i hcond
        rcases hgl : b.getLast? with _ | tab
        · exfalso
          have hb : b = [] := List.getLast?_eq_none_iff.mp hgl
          rw [hgl] at hlv
          simp only [Option.map_none', Option.getD_none] at hlv
          have hblen : b.length = 0 := by rw [hb]; rfl
          rw [hblen] at hdl
          simp at hdl
          have h2 := hcond.2
          rw [hlv, hdl] at h2
          simp only [satAdd, USIZE_MAX] at h2 hc
          omega
        · simp only [hgl]
          have hne : b ≠ [] := by
            intro hb
            subst hb
            simp at hgl
          have hlen : 0 < b.length := List.length_pos.mpr hne
          exact ih _ _ _ _ _ _ _ (by simp [List.length_dropLast]; omega) hc
      · split
        · rename_i hcond hrf
          cases a with
          | nil =>
            exfalso
            simp only [List.head?_nil, Option.map_none', Option.getD_none] at hrv
            simp at hdr
            rw [hrv, hdr] at hrf
            simp only [satAdd, USIZE_MAX] at hrf hc
            omega
          | cons tab rest =>
            refine ih _ _ _ _ _ _ _ ?_ hc
            have : (tab :: rest).length = rest.length + 1 := by simp
            omega
        · simp

/-- `populate_tabs_in_tab_line` wrapper of `populateGo_sum_le`. -/
theorem populate_sum_le (b a m : List LinePart) (cols : Nat) (p : Styling)
    (c : PluginCapabilities) (b' a' r : List LinePart) (ins : Bool)
    (h : populate_tabs_in_tab_line b a m cols p c = some (b', a', r, ins))
    (hle : get_current_title_len m ≤ cols) (hc : 2 * cols < USIZE_MAX) :
    get_current_title_len r ≤ cols :=
  populateGo_sum_le p c _ b a m 0 0 _ cols b' a' r ins h rfl hle hc

/-- `populate_tabs_in_tab_line` wrapper of `populateGo_extends`. -/
theorem populate_extends (b a m : List LinePart) (cols : Nat) (p : Styling)
    (c : PluginCapabilities) (b' a' r : List LinePart) (ins : Bool)
    (h : populate_tabs_in_tab_line b a m cols p c = some (b', a', r, ins)) :
    ∃ pre post, r = pre ++ m ++ post :=
  populateGo_extends p c _ b a m 0 0 _ cols b' a' r ins h

/-- `populate_tabs_in_tab_line` wrapper of `populateGo_isSome`. -/
theorem populate_isSome (b a m : List LinePart) (cols : Nat) (p : Styling)
    (c : PluginCapabilities) (hc : 2 * cols < USIZE_MAX) :
    (populate_tabs_in_tab_line b a m cols p c).isSome :=
  populateGo_isSome p c _ b a m 0 0 _ cols (by omega) hc

/-- Whatever `swap_layout_status` returns fits the space it was offered:
both the full-form and the (dead, see the C3 analysis) short-form branches
check their declared width against `max_len`. -/
theorem swap_layout_status_len_le (max_len : Nat) (sw : Option String)
    (d : Bool) (mode : InputMode) (p : Styling) (sep : String) (part : LinePart)
    (h : swap_layout_status max_len sw d mode p sep = some part) :
    part.len ≤ max_len := by
  cases sw with
  | none => simp [swap_layout_status] at h
  | some name =>
    simp only [swap_layout_status] at h
    by_cases h1 : (asciiUpper (" " ++ name ++ " ")).utf8ByteSize + strWidth sep * 2 ≤ max_len
    · rw [if_pos h1] at h
      simp only [Option.some.injEq] at h
      rw [← h]
      exact h1
    · rw [if_neg h1] at h
      by_cases h2 : (asciiUpper (" " ++ name ++ " ")).utf8ByteSize + strWidth sep * 2 + 1 ≤
          max_len ∧ mode ≠ InputMode.Locked
      · rw [if_pos h2] at h
        simp only [Option.some.injEq] at h
        rw [← h]
        exact h2.1
      · rw [if_neg h2] at h
        exact absurd h (by simp)

/-- An admit-or-skip step conserves width: admitted width plus leftover
space is invariant. -/
theorem try_widget_spec (st : List LinePart × Nat) (w : LinePart) :
    get_current_title_len (try_widget st w).1 + (try_widget st w).2 =
      get_current_title_len st.1 + st.2 := by
  unfold try_widget
  split
  · simp
    omega
  · rfl

/-- Width conservation for the whole widget-packing pass: the admitted
widgets' total width plus the final leftover equals the initial remaining
space. -/
theorem right_widgets_spec (r0 : Nat) (p : Styling) (sep t : String)
    (li : LoadInput) (sw : Option String) (d : Bool) (mode : InputMode) :
    get_current_title_len (right_widgets r0 p sep t li sw d mode).1 +
      (right_widgets r0 p sep t li sw d mode).2 = r0 := by
  simp only [right_widgets]
  have h1 := try_widget_spec ([], r0) (time_status p sep t)
  have h2 := try_widget_spec (try_widget ([], r0) (time_status p sep t))
    (load_status p sep li)
  simp only [get_current_title_len_nil] at h1
  split
  · rename_i sls hsls
    have hsl : sls.len ≤ (try_widget (try_widget ([], r0) (time_status p sep t))
        (load_status p sep li)).2 := by
      by_cases h0 : 0 < (try_widget (try_widget ([], r0) (time_status p sep t))
          (load_status p sep li)).2
      · rw [if_pos h0] at hsls
        exact swap_layout_status_len_le _ _ _ _ _ _ _ hsls
      · rw [if_neg h0] at hsls
        exact absurd hsls (by simp)
    simp only [get_current_title_len_append, get_current_title_len_cons,
      get_current_title_len_nil]
    omega
  · omega

/-- When the clock fits the initial remaining space it is admitted first:
the widget list starts with the clock segment. -/
theorem right_widgets_time (r0 : Nat) (p : Styling) (sep t : String)
    (li : LoadInput) (sw : Option String) (d : Bool) (mode : InputMode)
    (h : (time_status p sep t).len ≤ r0) :
    ∃ rest, (right_widgets r0 p sep t li sw d mode).1 =
      time_status p sep t :: rest := by
  simp only [right_widgets, try_widget]
  rw [if_pos h]
  split
  · split
    · exact ⟨_, rfl⟩
    · exact ⟨_, rfl⟩
  · split
    · exact ⟨_, rfl⟩
    · exact ⟨_, rfl⟩

/-- The prefix always contains at least its leading (empty) label
segment. -/
theorem tab_line_prefix_ne_nil (sn : Option String) (mode : InputMode)
    (p : Styling) (cols : Nat) : tab_line_prefix sn mode p cols ≠ [] := by
  intro heq
  cases sn with
  | none =>
    simp only [ tab_line_prefix] at heq
    split_ifs at heq <;> simp at heq
  | some name =>
    simp only [ tab_line_prefix] at heq
    split_ifs at heq <;> simp at heq

/-- No prefix segment carries a tab identity. -/
theorem tab_line_prefix_tab_index (sn : Option String) (mode : InputMode)
    (p : Styling) (cols : Nat) (q : LinePart)
    (h : q ∈ tab_line_prefix sn mode p cols) : q.tab_index = none := by
  cases sn with
  | none =>
    simp only [ tab_line_prefix] at h
    split_ifs at h <;>
      (try simp only [List.singleton_append, List.cons_append, List.nil_append] at h) <;>
      fin_cases h <;> rfl
  | some name =>
    simp only [ tab_line_prefix] at h
    split_ifs at h <;>
      (try simp only [List.singleton_append, List.cons_append, List.nil_append] at h) <;>
      fin_cases h <;> rfl

/-- Characterization of the successful (active-tab-fits) `tab_line` path:
the output is prefix, then the fitted tab area, then one padding segment
filling the leftover space, then the admitted right-side widgets in reverse
admission order. -/
theorem tab_line_char (sn : Option String) (all_tabs : List LinePart) (idx cols : Nat)
    (pal : Styling) (caps : PluginCapabilities) (hide : Bool) (mode : InputMode)
    (sw : Option String) (dirty : Bool) (t : String) (li : LoadInput)
    (before after pfx : List LinePart) (active : LinePart)
    (hpfx : tab_line_prefix (if hide then none else sn) mode pal cols = pfx)
    (hsplit : split_active all_tabs idx = some (before, active, after))
    (b' a' r : List LinePart) (ins : Bool)
    (hpop : populate_tabs_in_tab_line before after [active]
      (cols - get_current_title_len pfx) pal caps = some (b', a', r, ins))
    (hfit : get_current_title_len pfx + active.len ≤ cols)
    (hT : get_current_title_len (pfx ++ r) ≤ cols) :
    tab_line sn all_tabs idx cols pal caps hide mode sw dirty t li =
      some ((pfx ++ r) ++
        [{ part := String.join (List.replicate
              (right_widgets (cols - get_current_title_len (pfx ++ r)) pal
                (tab_separator caps) t li sw dirty mode).2
              (paint ⟨pal.text_unselected.background, pal.text_unselected.background,
                false, false⟩ " ")),
           len := (right_widgets (cols - get_current_title_len (pfx ++ r)) pal
              (tab_separator caps) t li sw dirty mode).2,
           tab_index := none }] ++
        (right_widgets (cols - get_current_title_len (pfx ++ r)) pal
          (tab_separator caps) t li sw dirty mode).1.reverse) := by
  simp only [tab_line, hsplit, hpfx]
  rw [if_neg (by omega : ¬ cols < get_current_title_len pfx + active.len)]
  simp only [hpop]
  rw [if_neg (by omega : ¬ cols < get_current_title_len (pfx ++ r))]

/-- The early-return path of `tab_line` (`src/line.rs` lines 272-275): when
the active tab does not fit after the prefix, only the prefix is returned. -/
theorem tab_line_early (sn : Option String) (all_tabs : List LinePart) (idx cols : Nat)
    (pal : Styling) (caps : PluginCapabilities) (hide : Bool) (mode : InputMode)
    (sw : Option String) (dirty : Bool) (t : String) (li : LoadInput)
    (before after pfx : List LinePart) (active : LinePart)
    (hpfx : tab_line_prefix (if hide then none else sn) mode pal cols = pfx)
    (hsplit : split_active all_tabs idx = some (before, active, after))
    (hbig : cols < get_current_title_len pfx + active.len) :
    tab_line sn all_tabs idx cols pal caps hide mode sw dirty t li = some pfx := by
  simp only [tab_line, hsplit, hpfx]
  rw [if_pos hbig]

/-- Fixed colour palette used by the concrete evaluations below. -/
def testStyling : Styling :=
  ⟨⟨.EightBit 0, .EightBit 1, .EightBit 2, .EightBit 3, .EightBit 4, .EightBit 5⟩,
   ⟨.EightBit 10, .EightBit 11, .EightBit 12, .EightBit 13, .EightBit 14, .EightBit 15⟩,
   ⟨.EightBit 20, .EightBit 21, .EightBit 22, .EightBit 23, .EightBit 24, .EightBit 25⟩,
   ⟨.EightBit 30, .EightBit 31, .EightBit 32, .EightBit 33, .EightBit 34, .EightBit 35⟩⟩

/-- Capabilities with `arrow_fonts` set, so the separator is empty. -/
def testCaps : PluginCapabilities := ⟨true⟩

/-- A resolved load-average reading. -/
def testLoad : LoadInput := ⟨"0.00", "0.01", "0.05", .EightBit 2⟩

/-- A bare tab segment of the given declared width. -/
def seg (n : Nat) : LinePart := ⟨"", n, none⟩

/-- Number of tab segments the fitting loop moved out of the before/after
lists into the rendered row. -/
def placed_count (b a m : List LinePart) (cols : Nat) (p : Styling)
    (c : PluginCapabilities) : Option Nat :=
  (populate_tabs_in_tab_line b a m cols p c).map
    (fun res => b.length + a.length - (res.1.length + res.2.1.length))

/-- Wide before-active tab for the monotonicity counterexample. -/
def cBefore : List LinePart := [seg 20]

/-- Nine narrow after-active tabs for the monotonicity counterexample. -/
def cAfter : List LinePart := List.replicate 9 (seg 1)

/-- Narrow active tab for the monotonicity counterexample. -/
def cMid : List LinePart := [seg 1]

/-- C2: the claim is false as stated.  `tab_line` reads the clock via
`time_status` (`Local::now()`, `src/line.rs` line 403), which is not among
the arguments the claim lists: two calls with identical listed inputs but
clock readings one second apart produce different byte output (the admitted
clock widget embeds the formatted time). -/
theorem c2_counterexample :
    tab_line none [⟨"x", 3, some 0⟩] 0 40 testStyling testCaps true
        InputMode.Normal none false " 00:00:00 Sun " testLoad ≠
      tab_line none [⟨"x", 3, some 0⟩] 0 40 testStyling testCaps true
        InputMode.Normal none false " 00:00:01 Sun " testLoad := by
  set_option maxRecDepth 4000 in decide

/-- C2 (amended): the render computation is a deterministic function of the
listed inputs *together with* the resolved clock reading and load-average
reading: holding those two external readings fixed as well, two invocations
are byte-identical. -/
theorem c2_amended (sn : Option String) (all_tabs : List LinePart)
    (idx cols : Nat) (pal : Styling) (caps : PluginCapabilities) (hide : Bool)
    (mode : InputMode) (sw : Option String) (dirty : Bool)
    (t1 t2 : String) (li1 li2 : LoadInput) (ht : t1 = t2) (hl : li1 = li2) :
    tab_line sn all_tabs idx cols pal caps hide mode sw dirty t1 li1 =
      tab_line sn all_tabs idx cols pal caps hide mode sw dirty t2 li2 := by
  rw [ht, hl]

/-- Witness for the amended C2 at a concrete input. -/
theorem c2_amended_witness :
    tab_line none [⟨"x", 3, some 0⟩] 0 40 testStyling testCaps true
        InputMode.Normal none false " 00:00:00 Sun " testLoad =
      tab_line none [⟨"x", 3, some 0⟩] 0 40 testStyling testCaps true
        InputMode.Normal none false " 00:00:00 Sun " testLoad :=
  c2_amended none [⟨"x", 3, some 0⟩] 0 40 testStyling testCaps true
    InputMode.Normal none false " 00:00:00 Sun " " 00:00:00 Sun "
    testLoad testLoad rfl rfl

/-- C3: the claim is false as stated.  With separator width 0 and name "a",
the full form's declared width is 3; at `max_len = 2` a short form one
column *less* than the full form (as the claim describes it) would fit, the
mode is not Locked, and yet nothing is returned — because in the code
(`src/line.rs` line 381) `short_len` is `full_len + 1`, not `full_len - 1`,
so the short branch can never fire. -/
theorem c3_counterexample :
    (swap_layout_status 3 (some "a") false InputMode.Normal testStyling
        "").map LinePart.len = some 3 ∧
      swap_layout_status 2 (some "a") false InputMode.Normal testStyling
        "" = none := by
  constructor
  · decide
  · decide

/-- C3 (amended): the "short" form's declared width is `full_len + 1` (the
comment's joining space), so "full does not fit but short does" is
unsatisfiable: whenever `swap_layout_status` returns a part it is the full
form, whose width is the padded uppercased name's byte length plus two
separator widths and fits `max_len`; in every input mode (Locked or not)
the indicator is shown in full or not at all. -/
theorem c3_amended (max_len : Nat) (sw : Option String) (d : Bool)
    (mode : InputMode) (p : Styling) (sep : String) (part : LinePart)
    (h : swap_layout_status max_len sw d mode p sep = some part) :
    part.len ≤ max_len ∧ ∃ name, sw = some name ∧
      part.len = (asciiUpper (" " ++ name ++ " ")).utf8ByteSize + strWidth sep * 2 := by
  cases sw with
  | none => simp [swap_layout_status] at h
  | some name =>
    refine ⟨swap_layout_status_len_le _ _ _ _ _ _ _ h, name, rfl, ?_⟩
    simp only [swap_layout_status] at h
    by_cases h1 : (asciiUpper (" " ++ name ++ " ")).utf8ByteSize + strWidth sep * 2 ≤ max_len
    · rw [if_pos h1] at h
      simp only [Option.some.injEq] at h
      rw [← h]
    · rw [if_neg h1] at h
      by_cases h2 : (asciiUpper (" " ++ name ++ " ")).utf8ByteSize + strWidth sep * 2 + 1 ≤
          max_len ∧ mode ≠ InputMode.Locked
      · exact absurd h2.1 (by omega)
      · rw [if_neg h2] at h
        exact absurd h (by simp)

/-- The part returned by `swap_layout_status` at a concrete input, for the
amended-C3 witness. -/
def cSwapPart : LinePart :=
  (swap_layout_status 3 (some "a") false InputMode.Normal testStyling "").getD
    LinePart.default

/-- Witness for the amended C3 at a concrete input. -/
theorem c3_amended_witness :
    cSwapPart.len ≤ 3 ∧ ∃ name, (some "a" : Option String) = some name ∧
      cSwapPart.len = (asciiUpper (" " ++ name ++ " ")).utf8ByteSize + strWidth "" * 2 :=
  c3_amended 3 (some "a") false InputMode.Normal testStyling "" cSwapPart rfl

/-- C6: the claim is false as stated.  With a 20-wide before-active tab,
nine 1-wide after-active tabs and a 1-wide active tab, budget 26 places
nine tabs but the larger budget 27 places only one: at 27 the wide left tab
first fits (`20 + 13 - 6 = 27`), is taken by the centering preference, and
its width then crowds out every after-active tab. -/
theorem c6_counterexample :
    (26 : Nat) ≤ 27 ∧
      placed_count cBefore cAfter cMid 26 testStyling testCaps = some 9 ∧
      placed_count cBefore cAfter cMid 27 testStyling testCaps = some 1 := by
  refine ⟨by omega, ?_, ?_⟩
  · decide
  · decide

/-- C6 (amended): the number of visible tab segments is *not* monotone in
the column budget: there are inputs (held fixed) and budgets `cols1 ≤
cols2` for which the fitting loop places strictly fewer tabs under the
larger budget. -/
theorem c6_amended :
    ∃ (b a m : List LinePart) (cols1 cols2 : Nat) (p : Styling)
      (c : PluginCapabilities) (k1 k2 : Nat),
      cols1 ≤ cols2 ∧ placed_count b a m cols1 p c = some k1 ∧
        placed_count b a m cols2 p c = some k2 ∧ k2 < k1 :=
  ⟨cBefore, cAfter, cMid, 26, 27, testStyling, testCaps, 9, 1,
    by omega, by decide, by decide, by omega⟩

/-- The identity carried by a non-empty left collapse indicator. -/
theorem left_more_message_tab_index (k : Nat) (p : Styling) (sep : String)
    (i : Nat) (hk : 0 < k) : (left_more_message k p sep i).tab_index = some i := by
  unfold left_more_message
  rw [if_neg (by omega)]

/-- The identity carried by a non-empty right collapse indicator. -/
theorem right_more_message_tab_index (k : Nat) (p : Styling) (sep : String)
    (i : Nat) (hk : 0 < k) : (right_more_message k p sep i).tab_index = some i := by
  unfold right_more_message
  rw [if_neg (by omega)]

/-- C5: confirmed.  Whenever the fitting loop emits collapse indicators
(`inserted = true`), the rendered row is exactly `left_more_message k ...``
:: visible ++ [right_more_message k' ...]` where `k`/`k'` are the *final*
counts of still-hidden before/after tabs — the indicators inserted are the
ones recomputed in the terminating iteration, in which the remaining lists
are no longer touched, so the displayed "+k" (or "+many" for `k ≥ 10000`,
inside `left_more_message`/`right_more_message`) reflects the hidden count
at the moment of stopping, never a stale earlier count. -/
theorem c5_collapse_counts (b a m : List LinePart) (cols : Nat) (pal : Styling)
    (caps : PluginCapabilities) (b' a' r : List LinePart)
    (h : populate_tabs_in_tab_line b a m cols pal caps = some (b', a', r, true)) :
    ∃ mid, r = left_more_message b'.length pal (tab_separator caps)
        (b'.length - 1) ::
      (mid ++ [right_more_message a'.length pal (tab_separator caps)
        (b'.length + mid.length)]) :=
  populateGo_inserted pal caps _ b a m 0 0 _ cols b' a' r h

/-- Final state of the fitting loop on the concrete collapse scenario
(budget 26): one 20-wide tab stays hidden on the left, none on the
right. -/
def c5Result : List LinePart × List LinePart × List LinePart × Bool :=
  (populate_tabs_in_tab_line cBefore cAfter cMid 26 testStyling testCaps).getD
    ([], [], [], false)

set_option maxRecDepth 4000 in
/-- Witness for C5 at a concrete input that ends by inserting indicators. -/
theorem c5_collapse_counts_witness :
    ∃ mid, c5Result.2.2.1 = left_more_message c5Result.1.length testStyling
        (tab_separator testCaps) (c5Result.1.length - 1) ::
      (mid ++ [right_more_message c5Result.2.1.length testStyling
        (tab_separator testCaps) (c5Result.1.length + mid.length)]) :=
  c5_collapse_counts cBefore cAfter cMid 26 testStyling testCaps
    c5Result.1 c5Result.2.1 c5Result.2.2.1 rfl

/-- C9: confirmed.  At the moment the indicators are inserted, the left
indicator's identity is the index of the hidden tab adjacent to the
leftmost visible tab (remaining-before count minus one) and the right
indicator's identity is the index of the hidden tab adjacent to the
rightmost visible tab (remaining-before count plus the number of visible
tabs), so a click on either indicator resolves to that neighbouring hidden
tab. -/
theorem c9_indicator_identity (b a m : List LinePart) (cols : Nat)
    (pal : Styling) (caps : PluginCapabilities) (b' a' r : List LinePart)
    (h : populate_tabs_in_tab_line b a m cols pal caps = some (b', a', r, true)) :
    ∃ mid, r = left_more_message b'.length pal (tab_separator caps)
        (b'.length - 1) ::
      (mid ++ [right_more_message a'.length pal (tab_separator caps)
        (b'.length + mid.length)]) ∧
      (0 < b'.length → (left_more_message b'.length pal (tab_separator caps)
        (b'.length - 1)).tab_index = some (b'.length - 1)) ∧
      (0 < a'.length → (right_more_message a'.length pal (tab_separator caps)
        (b'.length + mid.length)).tab_index = some (b'.length + mid.length)) := by
  obtain ⟨mid, hr⟩ := populateGo_inserted pal caps _ b a m 0 0 _ cols b' a' r h
  exact ⟨mid, hr, fun hb => left_more_message_tab_index _ _ _ _ hb,
    fun ha => right_more_message_tab_index _ _ _ _ ha⟩

/-- A 20-wide before-active tab for the indicator-identity witness. -/
def c9Before : List LinePart := [seg 20]

/-- A 20-wide after-active tab for the indicator-identity witness. -/
def c9After : List LinePart := [seg 20]

/-- Final state of the fitting loop on the witness scenario (budget 13:
both indicators fit, neither 20-wide tab does). -/
def c9Result : List LinePart × List LinePart × List LinePart × Bool :=
  (populate_tabs_in_tab_line c9Before c9After cMid 13 testStyling testCaps).getD
    ([], [], [], false)

set_option maxRecDepth 4000 in
/-- Witness for C9 at a concrete input with hidden tabs on both sides. -/
theorem c9_indicator_identity_witness :
    ∃ mid, c9Result.2.2.1 = left_more_message c9Result.1.length testStyling
        (tab_separator testCaps) (c9Result.1.length - 1) ::
      (mid ++ [right_more_message c9Result.2.1.length testStyling
        (tab_separator testCaps) (c9Result.1.length + mid.length)]) ∧
      (0 < c9Result.1.length → (left_more_message c9Result.1.length testStyling
        (tab_separator testCaps) (c9Result.1.length - 1)).tab_index =
        some (c9Result.1.length - 1)) ∧
      (0 < c9Result.2.1.length → (right_more_message c9Result.2.1.length testStyling
        (tab_separator testCaps) (c9Result.1.length + mid.length)).tab_index =
        some (c9Result.1.length + mid.length)) :=
  c9_indicator_identity c9Before c9After cMid 13 testStyling testCaps
    c9Result.1 c9Result.2.1 c9Result.2.2.1 rfl

/-- Shared form of the fitting invariant at the `tab_line` call site: the
fitted row is within the post-prefix budget, contains the active segment,
and together with the prefix never exceeds `cols`. -/
theorem tab_line_fit_invariant (cols : Nat) (pal : Styling)
    (caps : PluginCapabilities) (before after pfx : List LinePart)
    (active : LinePart) (b' a' r : List LinePart) (ins : Bool)
    (hfit : get_current_title_len pfx + active.len ≤ cols)
    (hc : 2 * cols < USIZE_MAX)
    (hpop : populate_tabs_in_tab_line before after [active]
      (cols - get_current_title_len pfx) pal caps = some (b', a', r, ins)) :
    get_current_title_len r ≤ cols - get_current_title_len pfx ∧
      active ∈ r ∧ get_current_title_len (pfx ++ r) ≤ cols := by
  have h1 : get_current_title_len [active] ≤ cols - get_current_title_len pfx := by
    simp only [get_current_title_len_cons, get_current_title_len_nil]
    omega
  have hc2 : 2 * (cols - get_current_title_len pfx) < USIZE_MAX := by omega
  have hsum := populate_sum_le _ _ _ _ _ _ _ _ _ _ hpop h1 hc2
  obtain ⟨pre, post, hr⟩ := populate_extends _ _ _ _ _ _ _ _ _ _ hpop
  refine ⟨hsum, ?_, ?_⟩
  · rw [hr]
    simp
  · simp only [get_current_title_len_append]
    omega

/-- C7: confirmed.  When the active tab fits the budget left by the prefix,
the fitting loop's output (tabs plus any inserted indicators) has total
declared width within that budget and still contains the active segment,
so `cols - current_title_len` at `src/line.rs` line 292 cannot underflow
(the row built so far is never wider than `cols`).  The
`2 * cols < usize::MAX` hypothesis keeps the saturating projected-size
arithmetic honest; real column counts satisfy it trivially. -/
theorem c7_fit_invariant (sn : Option String) (all_tabs : List LinePart)
    (idx cols : Nat) (pal : Styling) (caps : PluginCapabilities) (hide : Bool)
    (mode : InputMode) (before after pfx : List LinePart) (active : LinePart)
    (b' a' r : List LinePart) (ins : Bool)
    (hpfx : tab_line_prefix (if hide then none else sn) mode pal cols = pfx)
    (hsplit : split_active all_tabs idx = some (before, active, after))
    (hfit : get_current_title_len pfx + active.len ≤ cols)
    (hc : 2 * cols < USIZE_MAX)
    (hpop : populate_tabs_in_tab_line before after [active]
      (cols - get_current_title_len pfx) pal caps = some (b', a', r, ins)) :
    get_current_title_len r ≤ cols - get_current_title_len pfx ∧
      active ∈ r ∧ get_current_title_len (pfx ++ r) ≤ cols :=
  tab_line_fit_invariant cols pal caps before after pfx active b' a' r ins
    hfit hc hpop

/-- The concrete prefix for the C7 witness. -/
def c7Pfx : List LinePart := tab_line_prefix none InputMode.Normal testStyling 40

/-- The concrete active tab for the C7 witness. -/
def c7Active : LinePart := ⟨"x", 3, some 0⟩

/-- Final state of the fitting loop in the C7 witness scenario. -/
def c7Result : List LinePart × List LinePart × List LinePart × Bool :=
  (populate_tabs_in_tab_line [] [] [c7Active]
    (40 - get_current_title_len c7Pfx) testStyling testCaps).getD
    ([], [], [], false)

set_option maxRecDepth 4000 in
/-- Witness for C7 at a concrete input. -/
theorem c7_fit_invariant_witness :
    get_current_title_len c7Result.2.2.1 ≤ 40 - get_current_title_len c7Pfx ∧
      c7Active ∈ c7Result.2.2.1 ∧
      get_current_title_len (c7Pfx ++ c7Result.2.2.1) ≤ 40 :=
  c7_fit_invariant none [c7Active] 0 40 testStyling testCaps true
    InputMode.Normal [] [] c7Pfx c7Active c7Result.1 c7Result.2.1
    c7Result.2.2.1 c7Result.2.2.2 rfl rfl (by decide) (by decide) rfl

/-- C1: the claim is false as stated.  With session name "abcdef" (rendered
"(abcdef)", width 8), mode NORMAL (badge " NORMAL ", width 8) and `cols =
8`, both prefix pieces pass their independent checks against the *original*
budget (`src/line.rs` lines 205, 229), giving a prefix of width 16; the
10-wide active tab then fails the fit check and `tab_line` returns early
with just the prefix — total declared width 16, not 8, and *exceeding*
`cols`. -/
theorem c1_counterexample :
    (tab_line (some "abcdef") [⟨"x", 10, some 0⟩] 0 8 testStyling testCaps
        false InputMode.Normal none false " 00:00:00 Sun " testLoad).map
      get_current_title_len = some 16 ∧ 8 < 16 := by
  constructor
  · decide
  · omega

/-- C1 (amended): whenever the prefix plus the active tab fits the budget,
the returned row's total declared width is exactly `cols` (blank padding
fills the leftover); when the active tab does not fit, `tab_line` returns
early with only the prefix, whose total width is *not* padded to `cols` and
can even exceed `cols` (the prefix pieces are admitted by independent
checks against the original budget). -/
theorem c1_width_budget (sn : Option String) (all_tabs : List LinePart)
    (idx cols : Nat) (pal : Styling) (caps : PluginCapabilities) (hide : Bool)
    (mode : InputMode) (sw : Option String) (dirty : Bool) (t : String)
    (li : LoadInput) (before after pfx : List LinePart) (active : LinePart)
    (hpfx : tab_line_prefix (if hide then none else sn) mode pal cols = pfx)
    (hsplit : split_active all_tabs idx = some (before, active, after))
    (hc : 2 * cols < USIZE_MAX) :
    (get_current_title_len pfx + active.len ≤ cols →
      (tab_line sn all_tabs idx cols pal caps hide mode sw dirty t li).map
        get_current_title_len = some cols) ∧
    (cols < get_current_title_len pfx + active.len →
      tab_line sn all_tabs idx cols pal caps hide mode sw dirty t li =
        some pfx) := by
  constructor
  · intro hfit
    have hpopS := populate_isSome before after [active]
      (cols - get_current_title_len pfx) pal caps (by omega)
    rw [Option.isSome_iff_exists] at hpopS
    obtain ⟨res, hpop⟩ := hpopS
    obtain ⟨b', a', r, ins⟩ := res
    have hinv := tab_line_fit_invariant cols pal caps before after pfx
      active b' a' r ins hfit hc hpop
    rw [tab_line_char sn all_tabs idx cols pal caps hide mode sw dirty t li
      before after pfx active hpfx hsplit b' a' r ins hpop hfit hinv.2.2]
    have hw := right_widgets_spec (cols - get_current_title_len (pfx ++ r))
      pal (tab_separator caps) t li sw dirty mode
    simp only [Option.map_some', get_current_title_len_append,
      get_current_title_len_cons, get_current_title_len_nil,
      get_current_title_len_reverse, Option.some.injEq]
    simp only [get_current_title_len_append] at hinv hw
    omega
  · intro hbig
    exact tab_line_early sn all_tabs idx cols pal caps hide mode sw dirty
      t li before after pfx active hpfx hsplit hbig

set_option maxRecDepth 4000 in
/-- Witness for the amended C1 on the exact-budget path. -/
theorem c1_width_budget_witness :
    (tab_line none [c7Active] 0 40 testStyling testCaps true InputMode.Normal
        none false " 00:00:00 Sun " testLoad).map get_current_title_len =
      some 40 :=
  (c1_width_budget none [c7Active] 0 40 testStyling testCaps true
    InputMode.Normal none false " 00:00:00 Sun " testLoad [] []
    c7Pfx c7Active rfl rfl (by decide)).1 (by decide)

/-- C4: confirmed.  When the prefix plus the active segment fits, the
returned row always contains the active segment (it is the seed of the
fitting loop's middle, which only grows around it); when it does not fit,
the returned list is exactly the prefix, every segment of which carries no
tab identity — no tab segment is rendered at all. -/
theorem c4_active_visibility (sn : Option String) (all_tabs : List LinePart)
    (idx cols : Nat) (pal : Styling) (caps : PluginCapabilities) (hide : Bool)
    (mode : InputMode) (sw : Option String) (dirty : Bool) (t : String)
    (li : LoadInput) (before after pfx : List LinePart) (active : LinePart)
    (hpfx : tab_line_prefix (if hide then none else sn) mode pal cols = pfx)
    (hsplit : split_active all_tabs idx = some (before, active, after)) :
    (get_current_title_len pfx + active.len ≤ cols →
      ∀ l, tab_line sn all_tabs idx cols pal caps hide mode sw dirty t li =
        some l → active ∈ l) ∧
    (cols < get_current_title_len pfx + active.len →
      tab_line sn all_tabs idx cols pal caps hide mode sw dirty t li =
        some pfx ∧ ∀ q ∈ pfx, q.tab_index = none) := by
  constructor
  · intro hfit l hl
    rcases hp : populate_tabs_in_tab_line before after [active]
        (cols - get_current_title_len pfx) pal caps with _ | res
    · simp only [tab_line, hsplit, hpfx] at hl
      rw [if_neg (by omega)] at hl
      simp only [hp] at hl
      cases hl
    · obtain ⟨b', a', r, ins⟩ := res
      by_cases hT : cols < get_current_title_len (pfx ++ r)
      · simp only [tab_line, hsplit, hpfx] at hl
        rw [if_neg (by omega)] at hl
        simp only [hp] at hl
        rw [if_pos hT] at hl
        cases hl
      · rw [tab_line_char sn all_tabs idx cols pal caps hide mode sw dirty
          t li before after pfx active hpfx hsplit b' a' r ins hp hfit
          (by omega)] at hl
        obtain ⟨pre, post, hr⟩ := populate_extends _ _ _ _ _ _ _ _ _ _ hp
        simp only [Option.some.injEq] at hl
        subst hl
        rw [hr]
        simp
  · intro hbig
    refine ⟨tab_line_early sn all_tabs idx cols pal caps hide mode sw dirty
      t li before after pfx active hpfx hsplit hbig, fun q hq => ?_⟩
    rw [← hpfx] at hq
    exact tab_line_prefix_tab_index _ _ _ _ _ hq

set_option maxRecDepth 4000 in
/-- Witness for C4 at a concrete input where the active tab fits. -/
theorem c4_active_visibility_witness :
    c7Active ∈ (tab_line none [c7Active] 0 40 testStyling testCaps true
      InputMode.Normal none false " 00:00:00 Sun " testLoad).getD [] :=
  (c4_active_visibility none [c7Active] 0 40 testStyling testCaps true
    InputMode.Normal none false " 00:00:00 Sun " testLoad [] []
    c7Pfx c7Active rfl rfl).1 (by decide) _ rfl

/-- C10: confirmed for every frame that has a tab area (when the active tab
does not fit, `tab_line` returns early with only the prefix and no padding
or widgets exist).  After the tab area the row is exactly: one padding
segment of width equal to the leftover space with identity `None`, then
the admitted right-side widgets in reverse admission order — so whenever
the clock is admitted it is the final, rightmost segment. -/
theorem c10_row_tail (sn : Option String) (all_tabs : List LinePart)
    (idx cols : Nat) (pal : Styling) (caps : PluginCapabilities) (hide : Bool)
    (mode : InputMode) (sw : Option String) (dirty : Bool) (t : String)
    (li : LoadInput) (before after pfx : List LinePart) (active : LinePart)
    (hpfx : tab_line_prefix (if hide then none else sn) mode pal cols = pfx)
    (hsplit : split_active all_tabs idx = some (before, active, after))
    (hfit : get_current_title_len pfx + active.len ≤ cols)
    (hc : 2 * cols < USIZE_MAX) :
    ∃ (b' a' r : List LinePart) (ins : Bool) (parts : List LinePart) (rem : Nat),
      populate_tabs_in_tab_line before after [active]
        (cols - get_current_title_len pfx) pal caps = some (b', a', r, ins) ∧
      right_widgets (cols - get_current_title_len (pfx ++ r)) pal
        (tab_separator caps) t li sw dirty mode = (parts, rem) ∧
      tab_line sn all_tabs idx cols pal caps hide mode sw dirty t li =
        some ((pfx ++ r) ++
          [{ part := String.join (List.replicate rem
                (paint ⟨pal.text_unselected.background,
                  pal.text_unselected.background, false, false⟩ " ")),
             len := rem, tab_index := none }] ++ parts.reverse) ∧
      ((time_status pal (tab_separator caps) t).len ≤
          cols - get_current_title_len (pfx ++ r) →
        ∀ l, tab_line sn all_tabs idx cols pal caps hide mode sw dirty t li =
          some l → l.getLast? = some (time_status pal (tab_separator caps) t)) := by
  have hpopS := populate_isSome before after [active]
    (cols - get_current_title_len pfx) pal caps (by omega)
  rw [Option.isSome_iff_exists] at hpopS
  obtain ⟨res, hpop⟩ := hpopS
  obtain ⟨b', a', r, ins⟩ := res
  have hinv := tab_line_fit_invariant cols pal caps before after pfx
    active b' a' r ins hfit hc hpop
  have hchar := tab_line_char sn all_tabs idx cols pal caps hide mode sw
    dirty t li before after pfx active hpfx hsplit b' a' r ins hpop hfit
    hinv.2.2
  refine ⟨b', a', r, ins,
    (right_widgets (cols - get_current_title_len (pfx ++ r)) pal
      (tab_separator caps) t li sw dirty mode).1,
    (right_widgets (cols - get_current_title_len (pfx ++ r)) pal
      (tab_separator caps) t li sw dirty mode).2,
    hpop, rfl, hchar, ?_⟩
  intro hts l hl
  rw [hchar] at hl
  simp only [Option.some.injEq] at hl
  subst hl
  obtain ⟨rest, hparts⟩ := right_widgets_time
    (cols - get_current_title_len (pfx ++ r)) pal (tab_separator caps) t li
    sw dirty mode hts
  rw [hparts, List.reverse_cons, ← List.append_assoc]
  exact List.getLast?_concat _

set_option maxRecDepth 4000 in
/-- Witness for C10 at a concrete input (the clock widget is admitted). -/
theorem c10_row_tail_witness :
    ∃ (b' a' r : List LinePart) (ins : Bool) (parts : List LinePart) (rem : Nat),
      populate_tabs_in_tab_line [] [] [c7Active]
        (40 - get_current_title_len c7Pfx) testStyling testCaps =
        some (b', a', r, ins) ∧
      right_widgets (40 - get_current_title_len (c7Pfx ++ r)) testStyling
        (tab_separator testCaps) " 00:00:00 Sun " testLoad none false
        InputMode.Normal = (parts, rem) ∧
      tab_line none [c7Active] 0 40 testStyling testCaps true InputMode.Normal
        none false " 00:00:00 Sun " testLoad =
        some ((c7Pfx ++ r) ++
          [{ part := String.join (List.replicate rem
                (paint ⟨testStyling.text_unselected.background,
                  testStyling.text_unselected.background, false, false⟩ " ")),
             len := rem, tab_index := none }] ++ parts.reverse) ∧
      ((time_status testStyling (tab_separator testCaps) " 00:00:00 Sun ").len ≤
          40 - get_current_title_len (c7Pfx ++ r) →
        ∀ l, tab_line none [c7Active] 0 40 testStyling testCaps true
          InputMode.Normal none false " 00:00:00 Sun " testLoad =
          some l → l.getLast? = some (time_status testStyling
            (tab_separator testCaps) " 00:00:00 Sun ")) :=
  c10_row_tail none [c7Active] 0 40 testStyling testCaps true InputMode.Normal
    none false " 00:00:00 Sun " testLoad [] [] c7Pfx c7Active rfl rfl
    (by decide) (by decide)

/-- When no tab in the update is active, the accumulation loop of `render`
keeps the initial active index and produces one segment per tab. -/
theorem render_tabs_no_active (mi : ModeInfo) :
    ∀ (tabs : List TabInfo) (acc : List LinePart × Nat × Option String × Bool × Bool),
      (∀ tb ∈ tabs, tb.active = false) →
      (render_tabs mi tabs acc).1.length = acc.1.length + tabs.length ∧
      (render_tabs mi tabs acc).2.1 = acc.2.1 := by
  intro tabs
  induction tabs with
  | nil =>
    intro acc h
    simp [render_tabs]
  | cons tb rest ih =>
    intro acc h
    obtain ⟨all, aidx, sw, dirty, alt⟩ := acc
    have htb : tb.active = false := h tb (by simp)
    simp only [render_tabs, htb, Bool.false_eq_true, false_and, if_false]
    have hrec := ih (all ++ [tab_style tb.name tb alt mi.style.colors
      mi.capabilities], aidx, sw, dirty, !alt)
      (fun x hx => h x (List.mem_cons_of_mem _ hx))
    simp only [List.length_append, List.length_cons, List.length_nil] at hrec ⊢
    omega

/-- A state holding one inactive tab, for the C8 counterexample. -/
def c8State : State :=
  ⟨true, [⟨1, "a", false, false, none⟩], 1,
    ⟨InputMode.Normal, none, ⟨testStyling, false⟩, testCaps⟩, []⟩

set_option maxRecDepth 4000 in
/-- C8: the claim is false as stated for the no-active case.  Given a
nonempty tab list in which no tab is marked active, `render` does *not*
produce an empty frame: the loop's `active_tab_index` keeps its initial
value 0 and a full row (prefix, tab, padding, widgets) is rendered. -/
theorem c8_counterexample :
    render c8State 20 " 12:34:56 Sun " testLoad ≠ some [] := by
  decide

/-- C8 (amended): if the tab list is empty, `render` produces an empty
frame without failing.  A `TabUpdate` carrying no active tab leaves the
plugin state unchanged (`src/main.rs` lines 99-101 only log), so a stored
nonempty tab list always has an active tab; and even if `render` is invoked
on a nonempty no-active tab list it still does not fail — it renders a
nonempty frame treating index 0 as active. -/
theorem c8_empty_frame (s : State) (cols : Nat) (t : String) (li : LoadInput)
    (tabs : List TabInfo) :
    (s.tabs = [] → render s cols t li = some []) ∧
    ((∀ tb ∈ tabs, tb.active = false) → update_tab_update s tabs = (s, false)) ∧
    (s.tabs ≠ [] → (∀ tb ∈ s.tabs, tb.active = false) → 2 * cols < USIZE_MAX →
      ∃ l, render s cols t li = some l ∧ l ≠ []) := by
  refine ⟨?_, ?_, ?_⟩
  · intro h
    simp [render, h]
  · intro h
    unfold update_tab_update
    rw [List.findIdx?_eq_none_iff.mpr (fun x hx => h x hx)]
  · intro hne hna hc
    have hie : s.tabs.isEmpty = false := by
      cases hs : s.tabs with
      | nil => exact absurd hs hne
      | cons tb rest => rfl
    have hrt := render_tabs_no_active s.mode_info s.tabs
      ([], 0, none, false, false) hna
    have hrender : render s cols t li = tab_line s.mode_info.session_name
        (render_tabs s.mode_info s.tabs ([], 0, none, false, false)).1
        (render_tabs s.mode_info s.tabs ([], 0, none, false, false)).2.1
        cols s.mode_info.style.colors s.mode_info.capabilities
        s.mode_info.style.hide_session_name s.mode_info.mode
        (render_tabs s.mode_info s.tabs ([], 0, none, false, false)).2.2.1
        (render_tabs s.mode_info s.tabs ([], 0, none, false, false)).2.2.2.1
        t li := by
      simp only [render, hie, Bool.false_eq_true, if_false]
    obtain ⟨q, qs, hq⟩ : ∃ q qs,
        (render_tabs s.mode_info s.tabs ([], 0, none, false, false)).1 =
          q :: qs := by
      cases hql : (render_tabs s.mode_info s.tabs ([], 0, none, false, false)).1 with
      | nil =>
        exfalso
        have := hrt.1
        rw [hql] at this
        have hlen : 0 < s.tabs.length := List.length_pos.mpr hne
        simp at this
        omega
      | cons q qs => exact ⟨q, qs, rfl⟩
    have hsplit : split_active
        (render_tabs s.mode_info s.tabs ([], 0, none, false, false)).1 0 =
        some ([], q, qs) := by
      rw [hq]
      rfl
    rw [hrender, hrt.2]
    by_cases hfit : get_current_title_len
        ( tab_line_prefix (if s.mode_info.style.hide_session_name then none
          else s.mode_info.session_name) s.mode_info.mode
          s.mode_info.style.colors cols) + q.len ≤ cols
    · have hpopS := populate_isSome [] qs [q]
        (cols - get_current_title_len ( tab_line_prefix
          (if s.mode_info.style.hide_session_name then none
            else s.mode_info.session_name) s.mode_info.mode
          s.mode_info.style.colors cols)) s.mode_info.style.colors
        s.mode_info.capabilities (by omega)
      rw [Option.isSome_iff_exists] at hpopS
      obtain ⟨res, hpop⟩ := hpopS
      obtain ⟨b', a', r, ins⟩ := res
      have hinv := tab_line_fit_invariant cols s.mode_info.style.colors
        s.mode_info.capabilities [] qs _ q b' a' r ins hfit hc hpop
      rw [tab_line_char s.mode_info.session_name _ 0 cols
        s.mode_info.style.colors s.mode_info.capabilities
        s.mode_info.style.hide_session_name s.mode_info.mode _ _ t li
        [] qs _ q rfl hsplit b' a' r ins hpop hfit hinv.2.2]
      refine ⟨_, rfl, ?_⟩
      intro hnil
      simp at hnil
    · rw [tab_line_early s.mode_info.session_name _ 0 cols
        s.mode_info.style.colors s.mode_info.capabilities
        s.mode_info.style.hide_session_name s.mode_info.mode _ _ t li
        [] qs _ q rfl hsplit (by omega)]
      exact ⟨_, rfl, tab_line_prefix_ne_nil _ _ _ _⟩

/-- A state with an empty tab list, for the C8 witness. -/
def c8Empty : State :=
  ⟨true, [], 1, ⟨InputMode.Normal, none, ⟨testStyling, false⟩, testCaps⟩, []⟩

set_option maxRecDepth 4000 in
/-- Witness for the amended C8 at concrete inputs: the empty list renders
an empty frame, an active-free update is dropped, and the no-active state
still renders a nonempty frame. -/
theorem c8_empty_frame_witness :
    render c8Empty 20 " 12:34:56 Sun " testLoad = some [] ∧
      update_tab_update c8State [⟨1, "a", false, false, none⟩] =
        (c8State, false) ∧
      ∃ l, render c8State 20 " 12:34:56 Sun " testLoad = some l ∧ l ≠ [] := by
  refine ⟨?_, ?_, ?_⟩
  · exact (c8_empty_frame c8Empty 20 " 12:34:56 Sun " testLoad []).1 rfl
  · exact (c8_empty_frame c8State 20 " 12:34:56 Sun " testLoad
      [⟨1, "a", false, false, none⟩]).2.1 (by decide)
  · exact (c8_empty_frame c8State 20 " 12:34:56 Sun " testLoad []).2.2
      (by decide) (by decide) (by decide)

end CompactBar
